import Mathlib

/-!
Shallow embedding of `CheckTransaction` from `src/consensus/tx_check.cpp`
(context-free transaction consensus checker with a transparent pool, a
first-generation shielded pool of join-split descriptions, and a
second-generation shielded pool with an aggregate value balance), together
with theorems settling the claims about it.

Monetary amounts (`CAmount`, a C++ `int64_t`) are embedded as `Int`; where a
claim is about machine overflow a separate wrapping-arithmetic variant of the
checker is defined and compared with the ideal one.
-/

/-- Modelled from the spec: `MAX_SUPPLY` ("a fixed constant representing the
total possible unit supply of the ledger"); `amount.h` is not among the shown
sources, so the customary 21e14 base units is used.  No claim depends on the
exact value, only on `0 < MAX_MONEY` and `2 * MAX_MONEY < 2^63`. -/
def MAX_MONEY : Int := 2100000000000000

/-- Modelled from the spec: the maximum permitted block weight used by the
serialized-size ceiling of pass 4.1. -/
def MAX_BLOCK_WEIGHT : Nat := 4000000

/-- Modelled from the spec: the "fixed weight scale factor" multiplying the
witness-stripped serialized size in pass 4.1. -/
def WITNESS_SCALE_FACTOR : Nat := 4

/-- Modelled from the spec: a single economically-meaningful amount is valid
when it lies in `[0, MAX_SUPPLY]` (C++ `MoneyRange`). -/
def MoneyRange (nValue : Int) : Bool :=
  decide (0 ≤ nValue) && decide (nValue ≤ MAX_MONEY)

/-- A previous-output reference: (transaction id, output index).  The 256-bit
transaction id is embedded as `Nat`. -/
structure COutPoint where
  hash : Nat
  n : Nat
deriving DecidableEq, Repr

/-- Modelled from the spec: the "null" reference is "a reserved sentinel used
only by coinbase inputs" (C++: zero hash and index `0xffffffff`). -/
def COutPoint.IsNull (p : COutPoint) : Bool :=
  decide (p.hash = 0) && decide (p.n = 4294967295)

/-- A transparent input: previous-output reference plus unlocking script
(opaque bytes; only the length is ever inspected). -/
structure CTxIn where
  prevout : COutPoint
  scriptSig : List Nat
deriving DecidableEq, Repr

/-- A transparent output: amount plus locking script (opaque here). -/
structure CTxOut where
  nValue : Int
  scriptPubKey : List Nat
deriving DecidableEq, Repr

/-- A first-generation shielded (join-split) description: `vpub_old` is value
moving transparent→shielded, `vpub_new` shielded→transparent, plus its
nullifiers (256-bit values embedded as `Nat`). -/
structure JSDescription where
  vpub_old : Int
  vpub_new : Int
  nullifiers : List Nat
deriving DecidableEq, Repr

/-- A second-generation (Sapling) spend description: only its nullifier is
observable to this checker. -/
structure SpendDescription where
  nullifier : Nat
deriving DecidableEq, Repr

/-- A transaction as seen by the context-free checker.  `serializedSize` is
modelled from the spec: the canonical witness-stripped serialized byte length
(the serializer itself is not among the shown sources), carried as a field
since pass 4.1 only compares it against the weight ceiling.  Second-generation
output descriptions are opaque, so only their list shape is kept. -/
structure CTransaction where
  vin : List CTxIn
  vout : List CTxOut
  vJoinSplit : List JSDescription
  vShieldedSpend : List SpendDescription
  vShieldedOutput : List Unit
  valueBalance : Int
  serializedSize : Nat
deriving DecidableEq, Repr

/-- Modelled from the spec: "A transaction is `coinbase` if its first
transparent input's previous-output reference is the null sentinel"
(`CTransaction::IsCoinBase` is not among the shown sources).  A transaction
with no transparent inputs has no first input and is not coinbase. -/
def CTransaction.IsCoinBase (tx : CTransaction) : Bool :=
  match tx.vin with
  | [] => false
  | txin :: _ => txin.prevout.IsNull

/-- The verdict of the checker: `Valid` or `Invalid(reason_code)`. -/
inductive Verdict where
  | valid : Verdict
  | invalid (reason : String) : Verdict
deriving DecidableEq, Repr

/-- Pass 4.1, lines 13-19: structural shape checks (non-empty input side,
non-empty output side, serialized-size ceiling). -/
def structuralPass (tx : CTransaction) : Except String Unit :=
  if tx.vin = [] ∧ tx.vJoinSplit = [] ∧ tx.vShieldedSpend = [] then
    .error "bad-txns-vin-empty"
  else if tx.vout = [] ∧ tx.vJoinSplit = [] ∧ tx.vShieldedOutput = [] then
    .error "bad-txns-vout-empty"
  else if tx.serializedSize * WITNESS_SCALE_FACTOR > MAX_BLOCK_WEIGHT then
    .error "bad-txns-oversize"
  else
    .ok ()

/-- Pass 4.2, lines 22-32: per-output range checks and the running
transparent-output total, returning the final `nValueOut`. -/
def checkVout : List CTxOut → Int → Except String Int
  | [], nValueOut => .ok nValueOut
  | txout :: rest, nValueOut =>
    if txout.nValue < 0 then .error "bad-txns-vout-negative"
    else if txout.nValue > MAX_MONEY then .error "bad-txns-vout-toolarge"
    else
      let nValueOut := nValueOut + txout.nValue
      if !MoneyRange nValueOut then .error "bad-txns-txouttotal-toolarge"
      else checkVout rest nValueOut

/-- Pass 4.3, lines 35-48: valueBalance must be zero without Sapling
descriptions, its magnitude is bounded, and a non-positive valueBalance is
accounted on the output side. -/
def valueBalanceOutPass (tx : CTransaction) (nValueOut : Int) : Except String Int :=
  if tx.vShieldedSpend = [] ∧ tx.vShieldedOutput = [] ∧ tx.valueBalance ≠ 0 then
    .error "bad-txns-valuebalance-nonzero"
  else if tx.valueBalance > MAX_MONEY ∨ tx.valueBalance < -MAX_MONEY then
    .error "bad-txns-valuebalance-toolarge"
  else if tx.valueBalance ≤ 0 then
    let nValueOut := nValueOut + -tx.valueBalance
    if !MoneyRange nValueOut then .error "bad-txns-txouttotal-toolarge"
    else .ok nValueOut
  else .ok nValueOut

/-- Pass 4.4 first traversal, lines 51-71: per-description range checks on
both join-split legs, the one-direction rule, and accumulation of `vpub_old`
into the output-side total. -/
def checkJoinSplitOut : List JSDescription → Int → Except String Int
  | [], nValueOut => .ok nValueOut
  | joinsplit :: rest, nValueOut =>
    if joinsplit.vpub_old < 0 then .error "bad-txns-vpub_old-negative"
    else if joinsplit.vpub_new < 0 then .error "bad-txns-vpub_new-negative"
    else if joinsplit.vpub_old > MAX_MONEY then .error "bad-txns-vpub_old-toolarge"
    else if joinsplit.vpub_new > MAX_MONEY then .error "bad-txns-vpub_new-toolarge"
    else if joinsplit.vpub_new ≠ 0 ∧ joinsplit.vpub_old ≠ 0 then
      .error "bad-txns-vpubs-both-nonzero"
    else
      let nValueOut := nValueOut + joinsplit.vpub_old
      if !MoneyRange nValueOut then .error "bad-txns-txouttotal-toolarge"
      else checkJoinSplitOut rest nValueOut

/-- Pass 4.4 second traversal, lines 77-84: accumulation of `vpub_new` into
the input-side total, re-checking each amount alongside the running total. -/
def checkJoinSplitIn : List JSDescription → Int → Except String Int
  | [], nValueIn => .ok nValueIn
  | joinsplit :: rest, nValueIn =>
    let nValueIn := nValueIn + joinsplit.vpub_new
    if !MoneyRange joinsplit.vpub_new || !MoneyRange nValueIn then
      .error "bad-txns-txintotal-toolarge"
    else checkJoinSplitIn rest nValueIn

/-- Pass 4.4 tail, lines 87-93: a non-negative valueBalance is accounted on
the input side. -/
def valueBalanceInPass (tx : CTransaction) (nValueIn : Int) : Except String Int :=
  if tx.valueBalance ≥ 0 then
    let nValueIn := nValueIn + tx.valueBalance
    if !MoneyRange nValueIn then .error "bad-txns-txintotal-toolarge"
    else .ok nValueIn
  else .ok nValueIn

/-- Passes 4.1 through 4.4 chained with early return, yielding the final
`(nValueOut, nValueIn)` pair when all of them succeed. -/
def prePasses (tx : CTransaction) : Except String (Int × Int) :=
  match structuralPass tx with
  | .error r => .error r
  | .ok _ =>
  match checkVout tx.vout 0 with
  | .error r => .error r
  | .ok nOut =>
  match valueBalanceOutPass tx nOut with
  | .error r => .error r
  | .ok nOut =>
  match checkJoinSplitOut tx.vJoinSplit nOut with
  | .error r => .error r
  | .ok nOut =>
  match checkJoinSplitIn tx.vJoinSplit 0 with
  | .error r => .error r
  | .ok nIn =>
  match valueBalanceInPass tx nIn with
  | .error r => .error r
  | .ok nIn => .ok (nOut, nIn)

/-- Pass 4.5 first key space, lines 100-104: duplicate previous-output
references among transparent inputs (std::set insertion embedded as an
accumulated membership list). -/
def checkDupInputs : List CTxIn → List COutPoint → Option String
  | [], _ => none
  | txin :: rest, seen =>
    if txin.prevout ∈ seen then some "bad-txns-inputs-duplicate"
    else checkDupInputs rest (txin.prevout :: seen)

/-- Inner loop of pass 4.5's second key space: insert each nullifier of one
join-split description, `none` on the first repeat. -/
def insertNullifiers : List Nat → List Nat → Option (List Nat)
  | [], seen => some seen
  | nf :: rest, seen =>
    if nf ∈ seen then none
    else insertNullifiers rest (nf :: seen)

/-- Pass 4.5 second key space, lines 107-113: duplicate join-split nullifiers
flattened across all descriptions. -/
def checkDupJSNullifiers : List JSDescription → List Nat → Option String
  | [], _ => none
  | joinsplit :: rest, seen =>
    match insertNullifiers joinsplit.nullifiers seen with
    | none => some "bad-joinsplits-nullifiers-duplicate"
    | some seen => checkDupJSNullifiers rest seen

/-- Pass 4.5 third key space, lines 116-120: duplicate Sapling spend
nullifiers. -/
def checkDupSapNullifiers : List SpendDescription → List Nat → Option String
  | [], _ => none
  | sd :: rest, seen =>
    if sd.nullifier ∈ seen then some "bad-spend-description-nullifiers-duplicate"
    else checkDupSapNullifiers rest (sd.nullifier :: seen)

/-- Pass 4.5 assembled: the three independent duplicate-detection checks in
source order. -/
def dupPasses (tx : CTransaction) : Option String :=
  match checkDupInputs tx.vin [] with
  | some r => some r
  | none =>
  match checkDupJSNullifiers tx.vJoinSplit [] with
  | some r => some r
  | none => checkDupSapNullifiers tx.vShieldedSpend []

/-- Pass 4.6, lines 122-140: coinbase rules (unlocking-script length window,
no Sapling spends) or ordinary rules (no null prevout, no null Sapling
nullifier). -/
def finalPass (tx : CTransaction) : Option String :=
  if tx.IsCoinBase then
    match tx.vin with
    | txin :: _ =>
      if txin.scriptSig.length < 2 ∨ txin.scriptSig.length > 100 then
        some "bad-cb-length"
      else if tx.vShieldedSpend.length > 0 then
        some "bad-cb-has-spend-description"
      else none
    | [] => none
  else
    if tx.vin.any (fun txin => txin.prevout.IsNull) then
      some "bad-txns-prevout-null"
    else if tx.vShieldedSpend.any (fun sd => decide (sd.nullifier = 0)) then
      some "bad-spend-description-nullifier-null"
    else none

/-- The whole of `CheckTransaction` (lines 10-143): the six passes in order,
first failure short-circuiting. -/
def CheckTransaction (tx : CTransaction) : Verdict :=
  match prePasses tx with
  | .error r => .invalid r
  | .ok _ =>
  match dupPasses tx with
  | some r => .invalid r
  | none =>
  match finalPass tx with
  | some r => .invalid r
  | none => .valid

/-- The output-side accounted total named by the spec: the sum of all
transparent output amounts, plus the negated pool balance delta when the
delta is non-positive, plus every `vpub_old` (pool exit amount). -/
def totalOut (tx : CTransaction) : Int :=
  (tx.vout.map (fun o => o.nValue)).sum
    + (if tx.valueBalance ≤ 0 then -tx.valueBalance else 0)
    + (tx.vJoinSplit.map (fun js => js.vpub_old)).sum

/-- The input-side accounted total named by the spec: the sum of every
`vpub_new` (pool entry amount), plus the pool balance delta when it is
non-negative. -/
def totalIn (tx : CTransaction) : Int :=
  (tx.vJoinSplit.map (fun js => js.vpub_new)).sum
    + (if 0 ≤ tx.valueBalance then tx.valueBalance else 0)

/-- Two's-complement wraparound of a signed 64-bit quantity: what C++
`int64_t` arithmetic would store if the mathematical result overflowed. -/
def wrap64 (x : Int) : Int :=
  (x + 9223372036854775808) % 18446744073709551616 - 9223372036854775808

/-- Signed 64-bit addition with wraparound. -/
def addI64 (a b : Int) : Int := wrap64 (a + b)

/-- Signed 64-bit negation with wraparound. -/
def negI64 (a : Int) : Int := wrap64 (-a)

/-- Pass 4.2 with every running-total addition performed in wrapping 64-bit
arithmetic. -/
def checkVout64 : List CTxOut → Int → Except String Int
  | [], nValueOut => .ok nValueOut
  | txout :: rest, nValueOut =>
    if txout.nValue < 0 then .error "bad-txns-vout-negative"
    else if txout.nValue > MAX_MONEY then .error "bad-txns-vout-toolarge"
    else
      let nValueOut := addI64 nValueOut txout.nValue
      if !MoneyRange nValueOut then .error "bad-txns-txouttotal-toolarge"
      else checkVout64 rest nValueOut

/-- Pass 4.3 with wrapping 64-bit negation and addition. -/
def valueBalanceOutPass64 (tx : CTransaction) (nValueOut : Int) : Except String Int :=
  if tx.vShieldedSpend = [] ∧ tx.vShieldedOutput = [] ∧ tx.valueBalance ≠ 0 then
    .error "bad-txns-valuebalance-nonzero"
  else if tx.valueBalance > MAX_MONEY ∨ tx.valueBalance < -MAX_MONEY then
    .error "bad-txns-valuebalance-toolarge"
  else if tx.valueBalance ≤ 0 then
    let nValueOut := addI64 nValueOut (negI64 tx.valueBalance)
    if !MoneyRange nValueOut then .error "bad-txns-txouttotal-toolarge"
    else .ok nValueOut
  else .ok nValueOut

/-- Pass 4.4 first traversal with wrapping 64-bit addition. -/
def checkJoinSplitOut64 : List JSDescription → Int → Except String Int
  | [], nValueOut => .ok nValueOut
  | joinsplit :: rest, nValueOut =>
    if joinsplit.vpub_old < 0 then .error "bad-txns-vpub_old-negative"
    else if joinsplit.vpub_new < 0 then .error "bad-txns-vpub_new-negative"
    else if joinsplit.vpub_old > MAX_MONEY then .error "bad-txns-vpub_old-toolarge"
    else if joinsplit.vpub_new > MAX_MONEY then .error "bad-txns-vpub_new-toolarge"
    else if joinsplit.vpub_new ≠ 0 ∧ joinsplit.vpub_old ≠ 0 then
      .error "bad-txns-vpubs-both-nonzero"
    else
      let nValueOut := addI64 nValueOut joinsplit.vpub_old
      if !MoneyRange nValueOut then .error "bad-txns-txouttotal-toolarge"
      else checkJoinSplitOut64 rest nValueOut

/-- Pass 4.4 second traversal with wrapping 64-bit addition. -/
def checkJoinSplitIn64 : List JSDescription → Int → Except String Int
  | [], nValueIn => .ok nValueIn
  | joinsplit :: rest, nValueIn =>
    let nValueIn := addI64 nValueIn joinsplit.vpub_new
    if !MoneyRange joinsplit.vpub_new || !MoneyRange nValueIn then
      .error "bad-txns-txintotal-toolarge"
    else checkJoinSplitIn64 rest nValueIn

/-- Pass 4.4 tail with wrapping 64-bit addition. -/
def valueBalanceInPass64 (tx : CTransaction) (nValueIn : Int) : Except String Int :=
  if tx.valueBalance ≥ 0 then
    let nValueIn := addI64 nValueIn tx.valueBalance
    if !MoneyRange nValueIn then .error "bad-txns-txintotal-toolarge"
    else .ok nValueIn
  else .ok nValueIn

/-- Passes 4.1 through 4.4 in wrapping 64-bit arithmetic. -/
def prePasses64 (tx : CTransaction) : Except String (Int × Int) :=
  match structuralPass tx with
  | .error r => .error r
  | .ok _ =>
  match checkVout64 tx.vout 0 with
  | .error r => .error r
  | .ok nOut =>
  match valueBalanceOutPass64 tx nOut with
  | .error r => .error r
  | .ok nOut =>
  match checkJoinSplitOut64 tx.vJoinSplit nOut with
  | .error r => .error r
  | .ok nOut =>
  match checkJoinSplitIn64 tx.vJoinSplit 0 with
  | .error r => .error r
  | .ok nIn =>
  match valueBalanceInPass64 tx nIn with
  | .error r => .error r
  | .ok nIn => .ok (nOut, nIn)

/-- The checker with every running-total operation performed in
wrapping 64-bit arithmetic (the duplicate and final passes perform no
amount arithmetic and are shared). -/
def CheckTransaction64 (tx : CTransaction) : Verdict :=
  match prePasses64 tx with
  | .error r => .invalid r
  | .ok _ =>
  match dupPasses tx with
  | some r => .invalid r
  | none =>
  match finalPass tx with
  | some r => .invalid r
  | none => .valid

/-- Follows the spec's words (section 4.4): the pool balance delta is added
to the input-side total only when it is strictly positive. -/
def valueBalanceInPassSpec (tx : CTransaction) (nValueIn : Int) : Except String Int :=
  if tx.valueBalance > 0 then
    let nValueIn := nValueIn + tx.valueBalance
    if !MoneyRange nValueIn then .error "bad-txns-txintotal-toolarge"
    else .ok nValueIn
  else .ok nValueIn

/-- Passes 4.1 through 4.4 with the spec's strictly-positive input-side
delta accounting in place of the implementation's non-negative one. -/
def prePassesSpec (tx : CTransaction) : Except String (Int × Int) :=
  match structuralPass tx with
  | .error r => .error r
  | .ok _ =>
  match checkVout tx.vout 0 with
  | .error r => .error r
  | .ok nOut =>
  match valueBalanceOutPass tx nOut with
  | .error r => .error r
  | .ok nOut =>
  match checkJoinSplitOut tx.vJoinSplit nOut with
  | .error r => .error r
  | .ok nOut =>
  match checkJoinSplitIn tx.vJoinSplit 0 with
  | .error r => .error r
  | .ok nIn =>
  match valueBalanceInPassSpec tx nIn with
  | .error r => .error r
  | .ok nIn => .ok (nOut, nIn)

/-- The spec's variant of the checker for the refinement comparison: the
delta joins the input side only when strictly positive; all else as the
implementation. -/
def CheckTransactionSpec (tx : CTransaction) : Verdict :=
  match prePassesSpec tx with
  | .error r => .invalid r
  | .ok _ =>
  match dupPasses tx with
  | some r => .invalid r
  | none =>
  match finalPass tx with
  | some r => .invalid r
  | none => .valid

/-- The per-amount checks of pass 4.4 on one join-split description:
both legs non-negative and at most `MAX_MONEY`. -/
def perAmountOk (joinsplit : JSDescription) : Bool :=
  decide (0 ≤ joinsplit.vpub_old) && decide (joinsplit.vpub_old ≤ MAX_MONEY)
    && decide (0 ≤ joinsplit.vpub_new) && decide (joinsplit.vpub_new ≤ MAX_MONEY)

/-- Pass 4.4 second traversal with the redundant per-amount conjunct
removed: only the running input-side total is range-checked. -/
def checkJoinSplitInNC : List JSDescription → Int → Except String Int
  | [], nValueIn => .ok nValueIn
  | joinsplit :: rest, nValueIn =>
    let nValueIn := nValueIn + joinsplit.vpub_new
    if !MoneyRange nValueIn then .error "bad-txns-txintotal-toolarge"
    else checkJoinSplitInNC rest nValueIn

/-- All running input-side totals stay in range while accumulating the
`vpub_new` legs of a description list on top of a start value. -/
def inTotalsInRange : List JSDescription → Int → Bool
  | [], _ => true
  | joinsplit :: rest, nValueIn =>
    MoneyRange (nValueIn + joinsplit.vpub_new)
      && inTotalsInRange rest (nValueIn + joinsplit.vpub_new)

/-- The flattened first-generation nullifier sequence of a transaction, in
traversal order. -/
def sproutNullifiers (tx : CTransaction) : List Nat :=
  (tx.vJoinSplit.map (fun js => js.nullifiers)).flatten

def cbTxGood : CTransaction :=
  { vin := [{ prevout := { hash := 0, n := 4294967295 }, scriptSig := [0, 0] }]
    vout := [{ nValue := 1, scriptPubKey := [] }]
    vJoinSplit := []
    vShieldedSpend := []
    vShieldedOutput := []
    valueBalance := 0
    serializedSize := 100 }

def vbTxBig : CTransaction :=
  { vin := [{ prevout := { hash := 7, n := 0 }, scriptSig := [] }]
    vout := [{ nValue := 0, scriptPubKey := [] }]
    vJoinSplit := []
    vShieldedSpend := []
    vShieldedOutput := []
    valueBalance := 2100000000000001
    serializedSize := 100 }

def cbTxShortSig : CTransaction :=
  { vin := [{ prevout := { hash := 0, n := 4294967295 }, scriptSig := [0] }]
    vout := [{ nValue := 1, scriptPubKey := [] }]
    vJoinSplit := []
    vShieldedSpend := []
    vShieldedOutput := []
    valueBalance := 0
    serializedSize := 100 }

def jsTxSimple : CTransaction :=
  { vin := [{ prevout := { hash := 7, n := 0 }, scriptSig := [] }]
    vout := [{ nValue := 1, scriptPubKey := [] }]
    vJoinSplit := [{ vpub_old := 0, vpub_new := 5, nullifiers := [1, 2] }]
    vShieldedSpend := []
    vShieldedOutput := []
    valueBalance := 0
    serializedSize := 100 }

/-- The reason codes passes 4.1 through 4.4 can produce. -/
def preErrors : List String :=
  ["bad-txns-vin-empty", "bad-txns-vout-empty", "bad-txns-oversize",
   "bad-txns-vout-negative", "bad-txns-vout-toolarge", "bad-txns-txouttotal-toolarge",
   "bad-txns-valuebalance-nonzero", "bad-txns-valuebalance-toolarge",
   "bad-txns-vpub_old-negative", "bad-txns-vpub_new-negative",
   "bad-txns-vpub_old-toolarge", "bad-txns-vpub_new-toolarge",
   "bad-txns-vpubs-both-nonzero", "bad-txns-txintotal-toolarge"]

def dupInVoutEmptyTx : CTransaction :=
  { vin := [{ prevout := { hash := 1, n := 0 }, scriptSig := [] },
            { prevout := { hash := 1, n := 0 }, scriptSig := [] }]
    vout := []
    vJoinSplit := []
    vShieldedSpend := []
    vShieldedOutput := []
    valueBalance := 0
    serializedSize := 100 }

def dupInReachTx : CTransaction :=
  { vin := [{ prevout := { hash := 1, n := 0 }, scriptSig := [] },
            { prevout := { hash := 1, n := 0 }, scriptSig := [] }]
    vout := [{ nValue := 1, scriptPubKey := [] }]
    vJoinSplit := []
    vShieldedSpend := []
    vShieldedOutput := []
    valueBalance := 0
    serializedSize := 100 }

def crossNullifierTx : CTransaction :=
  { vin := [{ prevout := { hash := 7, n := 0 }, scriptSig := [] }]
    vout := [{ nValue := 1, scriptPubKey := [] }]
    vJoinSplit := [{ vpub_old := 0, vpub_new := 0, nullifiers := [5, 6] }]
    vShieldedSpend := [{ nullifier := 5 }]
    vShieldedOutput := []
    valueBalance := 0
    serializedSize := 100 }

def mixedJoinSplitTx : CTransaction :=
  { vin := [{ prevout := { hash := 7, n := 0 }, scriptSig := [] }]
    vout := [{ nValue := 1, scriptPubKey := [] }]
    vJoinSplit := [{ vpub_old := -1, vpub_new := 0, nullifiers := [1, 2] },
                   { vpub_old := 3, vpub_new := 4, nullifiers := [3, 4] }]
    vShieldedSpend := []
    vShieldedOutput := []
    valueBalance := 0
    serializedSize := 100 }

def bothLegsTx : CTransaction :=
  { vin := [{ prevout := { hash := 7, n := 0 }, scriptSig := [] }]
    vout := [{ nValue := 1, scriptPubKey := [] }]
    vJoinSplit := [{ vpub_old := 3, vpub_new := 4, nullifiers := [1, 2] }]
    vShieldedSpend := []
    vShieldedOutput := []
    valueBalance := 0
    serializedSize := 100 }

theorem moneyRange_iff (v : Int) : MoneyRange v = true ↔ 0 ≤ v ∧ v ≤ MAX_MONEY := by
  simp [MoneyRange]

theorem checkVout_ok_sum : ∀ (l : List CTxOut) (n n' : Int),
    checkVout l n = .ok n' → n' = n + (l.map (fun o => o.nValue)).sum := by
  intro l
  induction l with
  | nil => intro n n' h; simp [checkVout] at h; simp [h]
  | cons o rest ih =>
    intro n n' h
    simp only [checkVout] at h
    split at h
    · simp at h
    · split at h
      · simp at h
      · split at h
        · simp at h
        · have := ih _ _ h
          simp only [List.map_cons, List.sum_cons, this]
          ring

theorem checkVout_ok_range : ∀ (l : List CTxOut) (n n' : Int),
    checkVout l n = .ok n' → MoneyRange n = true → MoneyRange n' = true := by
  intro l
  induction l with
  | nil => intro n n' h _; simp [checkVout] at h; simpa [← h]
  | cons o rest ih =>
    intro n n' h hn
    simp only [checkVout] at h
    split at h
    · simp at h
    · split at h
      · simp at h
      · split at h
        · simp at h
        · rename_i hmr
          exact ih _ _ h (by simpa using hmr)

theorem checkVout_ok_mem : ∀ (l : List CTxOut) (n n' : Int),
    checkVout l n = .ok n' → ∀ o ∈ l, 0 ≤ o.nValue ∧ o.nValue ≤ MAX_MONEY := by
  intro l
  induction l with
  | nil => intro n n' _ o ho; simp at ho
  | cons o rest ih =>
    intro n n' h p hp
    simp only [checkVout] at h
    split at h
    · simp at h
    · split at h
      · simp at h
      · split at h
        · simp at h
        · rename_i h1 h2 _
          rcases List.mem_cons.mp hp with rfl | hp'
          · exact ⟨by omega, by omega⟩
          · exact ih _ _ h p hp'

theorem vbOut_ok_sum (tx : CTransaction) (n n' : Int)
    (h : valueBalanceOutPass tx n = .ok n') :
    n' = n + (if tx.valueBalance ≤ 0 then -tx.valueBalance else 0) := by
  simp only [valueBalanceOutPass] at h
  split at h
  · simp at h
  · split at h
    · simp at h
    · split at h
      · split at h
        · simp at h
        · rename_i hle _
          simp only [Except.ok.injEq] at h
          simp [hle, ← h]
      · rename_i hle
        simp only [Except.ok.injEq] at h
        simp [hle, ← h]

theorem vbOut_ok_range (tx : CTransaction) (n n' : Int)
    (h : valueBalanceOutPass tx n = .ok n') (hn : MoneyRange n = true) :
    MoneyRange n' = true := by
  simp only [valueBalanceOutPass] at h
  split at h
  · simp at h
  · split at h
    · simp at h
    · split at h
      · split at h
        · simp at h
        · rename_i hmr
          simp only [Except.ok.injEq] at h
          simp [← h]
          simpa using hmr
      · simp only [Except.ok.injEq] at h
        simpa [← h] using hn

theorem vbOut_ok_vbRange (tx : CTransaction) (n n' : Int)
    (h : valueBalanceOutPass tx n = .ok n') :
    -MAX_MONEY ≤ tx.valueBalance ∧ tx.valueBalance ≤ MAX_MONEY := by
  simp only [valueBalanceOutPass] at h
  split at h
  · simp at h
  · split at h
    · simp at h
    · rename_i hmag
      push_neg at hmag
      exact ⟨hmag.2, hmag.1⟩

theorem checkJoinSplitOut_ok_sum : ∀ (l : List JSDescription) (n n' : Int),
    checkJoinSplitOut l n = .ok n' → n' = n + (l.map (fun js => js.vpub_old)).sum := by
  intro l
  induction l with
  | nil => intro n n' h; simp [checkJoinSplitOut] at h; simp [h]
  | cons js rest ih =>
    intro n n' h
    simp only [checkJoinSplitOut] at h
    split at h
    · simp at h
    · split at h
      · simp at h
      · split at h
        · simp at h
        · split at h
          · simp at h
          · split at h
            · simp at h
            · split at h
              · simp at h
              · have := ih _ _ h
                simp only [List.map_cons, List.sum_cons, this]
                ring

theorem checkJoinSplitOut_ok_range : ∀ (l : List JSDescription) (n n' : Int),
    checkJoinSplitOut l n = .ok n' → MoneyRange n = true → MoneyRange n' = true := by
  intro l
  induction l with
  | nil => intro n n' h _; simp [checkJoinSplitOut] at h; simpa [← h]
  | cons js rest ih =>
    intro n n' h hn
    simp only [checkJoinSplitOut] at h
    split at h
    · simp at h
    · split at h
      · simp at h
      · split at h
        · simp at h
        · split at h
          · simp at h
          · split at h
            · simp at h
            · split at h
              · simp at h
              · rename_i hmr
                exact ih _ _ h (by simpa using hmr)

theorem checkJoinSplitOut_ok_mem : ∀ (l : List JSDescription) (n n' : Int),
    checkJoinSplitOut l n = .ok n' →
    ∀ js ∈ l, 0 ≤ js.vpub_old ∧ js.vpub_old ≤ MAX_MONEY ∧
      0 ≤ js.vpub_new ∧ js.vpub_new ≤ MAX_MONEY ∧ ¬(js.vpub_new ≠ 0 ∧ js.vpub_old ≠ 0) := by
  intro l
  induction l with
  | nil => intro n n' _ js hjs; simp at hjs
  | cons js0 rest ih =>
    intro n n' h js hjs
    simp only [checkJoinSplitOut] at h
    split at h
    · simp at h
    · split at h
      · simp at h
      · split at h
        · simp at h
        · split at h
          · simp at h
          · split at h
            · simp at h
            · split at h
              · simp at h
              · rename_i h1 h2 h3 h4 h5 _
                rcases List.mem_cons.mp hjs with rfl | hjs'
                · exact ⟨by omega, by omega, by omega, by omega, h5⟩
                · exact ih _ _ h js hjs'

theorem checkJoinSplitIn_ok_sum : ∀ (l : List JSDescription) (n n' : Int),
    checkJoinSplitIn l n = .ok n' → n' = n + (l.map (fun js => js.vpub_new)).sum := by
  intro l
  induction l with
  | nil => intro n n' h; simp [checkJoinSplitIn] at h; simp [h]
  | cons js rest ih =>
    intro n n' h
    simp only [checkJoinSplitIn] at h
    split at h
    · simp at h
    · have := ih _ _ h
      simp only [List.map_cons, List.sum_cons, this]
      ring

theorem checkJoinSplitIn_ok_range : ∀ (l : List JSDescription) (n n' : Int),
    checkJoinSplitIn l n = .ok n' → MoneyRange n = true → MoneyRange n' = true := by
  intro l
  induction l with
  | nil => intro n n' h _; simp [checkJoinSplitIn] at h; simpa [← h]
  | cons js rest ih =>
    intro n n' h hn
    simp only [checkJoinSplitIn] at h
    split at h
    · simp at h
    · rename_i hmr
      refine ih _ _ h ?_
      by_contra hC
      simp only [Bool.not_eq_true] at hC
      simp [hC] at hmr

theorem vbIn_ok_sum (tx : CTransaction) (n n' : Int)
    (h : valueBalanceInPass tx n = .ok n') :
    n' = n + (if 0 ≤ tx.valueBalance then tx.valueBalance else 0) := by
  simp only [valueBalanceInPass] at h
  split at h
  · split at h
    · simp at h
    · rename_i hge _
      simp only [Except.ok.injEq] at h
      simp [hge, ← h]
  · rename_i hge
    simp only [Except.ok.injEq] at h
    rw [if_neg (by omega), ← h]
    ring

theorem vbIn_ok_range (tx : CTransaction) (n n' : Int)
    (h : valueBalanceInPass tx n = .ok n') (hn : MoneyRange n = true) :
    MoneyRange n' = true := by
  simp only [valueBalanceInPass] at h
  split at h
  · split at h
    · simp at h
    · rename_i hmr
      simp only [Except.ok.injEq] at h
      simp [← h]
      simpa using hmr
  · simp only [Except.ok.injEq] at h
    simpa [← h] using hn

theorem valid_decompose (tx : CTransaction) (h : CheckTransaction tx = .valid) :
    (∃ p, prePasses tx = .ok p) ∧ dupPasses tx = none ∧ finalPass tx = none := by
  unfold CheckTransaction at h
  cases hp : prePasses tx with
  | error r => simp [hp] at h
  | ok p =>
    simp only [hp] at h
    cases hd : dupPasses tx with
    | some r => simp [hd] at h
    | none =>
      simp only [hd] at h
      cases hf : finalPass tx with
      | some r => simp [hf] at h
      | none => exact ⟨⟨p, rfl⟩, rfl, rfl⟩

theorem prePasses_ok_parts (tx : CTransaction) (nOut nIn : Int)
    (h : prePasses tx = .ok (nOut, nIn)) :
    structuralPass tx = .ok () ∧
    ∃ a b c, checkVout tx.vout 0 = .ok a ∧
      valueBalanceOutPass tx a = .ok b ∧
      checkJoinSplitOut tx.vJoinSplit b = .ok nOut ∧
      checkJoinSplitIn tx.vJoinSplit 0 = .ok c ∧
      valueBalanceInPass tx c = .ok nIn := by
  unfold prePasses at h
  cases h1 : structuralPass tx with
  | error r => simp [h1] at h
  | ok u =>
    simp only [h1] at h
    cases h2 : checkVout tx.vout 0 with
    | error r => simp [h2] at h
    | ok a =>
      simp only [h2] at h
      cases h3 : valueBalanceOutPass tx a with
      | error r => simp [h3] at h
      | ok b =>
        simp only [h3] at h
        cases h4 : checkJoinSplitOut tx.vJoinSplit b with
        | error r => simp [h4] at h
        | ok nOut2 =>
          simp only [h4] at h
          cases h5 : checkJoinSplitIn tx.vJoinSplit 0 with
          | error r => simp [h5] at h
          | ok c =>
            simp only [h5] at h
            cases h6 : valueBalanceInPass tx c with
            | error r => simp [h6] at h
            | ok nIn2 =>
              simp only [h6, Except.ok.injEq, Prod.mk.injEq] at h
              exact ⟨rfl, a, b, c, rfl, h3, h.1 ▸ h4, rfl, h.2 ▸ h6⟩

/-- C1: whenever the checker returns `Valid`, every transparent output amount
lies in `[0, MAX_SUPPLY]`, the output-side accounted total (transparent
outputs, plus the negated non-positive pool balance delta, plus all
`pool_exit_amount`s) lies in `[0, MAX_SUPPLY]`, and the input-side accounted
total (all `pool_entry_amount`s plus the non-negative pool balance delta)
lies in `[0, MAX_SUPPLY]`. -/
theorem C1_valid_totals_in_range (tx : CTransaction)
    (h : CheckTransaction tx = .valid) :
    (∀ o ∈ tx.vout, 0 ≤ o.nValue ∧ o.nValue ≤ MAX_MONEY) ∧
    (0 ≤ totalOut tx ∧ totalOut tx ≤ MAX_MONEY) ∧
    (0 ≤ totalIn tx ∧ totalIn tx ≤ MAX_MONEY) := by
  obtain ⟨⟨⟨nOut, nIn⟩, hp⟩, _, _⟩ := valid_decompose tx h
  obtain ⟨hs, a, b, c, hv, hvb, hjo, hji, hvbi⟩ := prePasses_ok_parts tx nOut nIn hp
  refine ⟨checkVout_ok_mem _ _ _ hv, ?_, ?_⟩
  · have e1 := checkVout_ok_sum _ _ _ hv
    have e2 := vbOut_ok_sum tx _ _ hvb
    have e3 := checkJoinSplitOut_ok_sum _ _ _ hjo
    have r1 := checkVout_ok_range _ _ _ hv (by decide)
    have r2 := vbOut_ok_range tx _ _ hvb r1
    have r3 := checkJoinSplitOut_ok_range _ _ _ hjo r2
    have htot : totalOut tx = nOut := by rw [totalOut, e3, e2, e1]; ring
    rw [htot]
    exact (moneyRange_iff _).mp r3
  · have e1 := checkJoinSplitIn_ok_sum _ _ _ hji
    have e2 := vbIn_ok_sum tx _ _ hvbi
    have r1 := checkJoinSplitIn_ok_range _ _ _ hji (by decide)
    have r2 := vbIn_ok_range tx _ _ hvbi r1
    have htot : totalIn tx = nIn := by rw [totalIn, e2, e1]; ring
    rw [htot]
    exact (moneyRange_iff _).mp r2

/-- Witness for C1 at a concrete transaction the checker accepts. -/
theorem C1_valid_totals_in_range_witness :
    (∀ o ∈ cbTxGood.vout, 0 ≤ o.nValue ∧ o.nValue ≤ MAX_MONEY) ∧
    (0 ≤ totalOut cbTxGood ∧ totalOut cbTxGood ≤ MAX_MONEY) ∧
    (0 ≤ totalIn cbTxGood ∧ totalIn cbTxGood ≤ MAX_MONEY) :=
  C1_valid_totals_in_range cbTxGood (by decide)

theorem wrap64_eq_self (x : Int) (h1 : -9223372036854775808 ≤ x)
    (h2 : x < 9223372036854775808) : wrap64 x = x := by
  unfold wrap64
  omega

theorem checkVout64_eq : ∀ (l : List CTxOut) (n : Int), MoneyRange n = true →
    checkVout64 l n = checkVout l n := by
  intro l
  induction l with
  | nil => intro n _; rfl
  | cons o rest ih =>
    intro n hn
    by_cases h1 : o.nValue < 0
    · simp only [checkVout64, checkVout, if_pos h1]
    · by_cases h2 : o.nValue > MAX_MONEY
      · simp only [checkVout64, checkVout, if_neg h1, if_pos h2]
      · have hn' := (moneyRange_iff n).mp hn
        have hadd : addI64 n o.nValue = n + o.nValue := by
          push_neg at h1 h2
          unfold addI64
          unfold MAX_MONEY at hn' h2
          apply wrap64_eq_self <;> omega
        simp only [checkVout64, checkVout, if_neg h1, if_neg h2, hadd]
        by_cases h3 : MoneyRange (n + o.nValue) = true
        · simp only [h3, Bool.not_true, Bool.false_eq_true, if_false]
          exact ih _ h3
        · have h3' : MoneyRange (n + o.nValue) = false := by simpa using h3
          simp [h3']

theorem valueBalanceOutPass64_eq (tx : CTransaction) (n : Int)
    (hn : MoneyRange n = true) :
    valueBalanceOutPass64 tx n = valueBalanceOutPass tx n := by
  unfold valueBalanceOutPass64 valueBalanceOutPass
  split
  · rfl
  · split
    · rfl
    · rename_i hmag
      push_neg at hmag
      split
      · rename_i hle
        have hn' := (moneyRange_iff n).mp hn
        have hneg : negI64 tx.valueBalance = -tx.valueBalance := by
          unfold negI64
          unfold MAX_MONEY at hmag
          apply wrap64_eq_self <;> omega
        have hadd : addI64 n (-tx.valueBalance) = n + -tx.valueBalance := by
          unfold addI64
          unfold MAX_MONEY at hn' hmag
          apply wrap64_eq_self <;> omega
        rw [hneg, hadd]
      · rfl

theorem checkJoinSplitOut64_eq : ∀ (l : List JSDescription) (n : Int),
    MoneyRange n = true → checkJoinSplitOut64 l n = checkJoinSplitOut l n := by
  intro l
  induction l with
  | nil => intro n _; rfl
  | cons js rest ih =>
    intro n hn
    by_cases h1 : js.vpub_old < 0
    · simp only [checkJoinSplitOut64, checkJoinSplitOut, if_pos h1]
    · by_cases h2 : js.vpub_new < 0
      · simp only [checkJoinSplitOut64, checkJoinSplitOut, if_neg h1, if_pos h2]
      · by_cases h3 : js.vpub_old > MAX_MONEY
        · simp only [checkJoinSplitOut64, checkJoinSplitOut, if_neg h1, if_neg h2,
            if_pos h3]
        · by_cases h4 : js.vpub_new > MAX_MONEY
          · simp only [checkJoinSplitOut64, checkJoinSplitOut, if_neg h1, if_neg h2,
              if_neg h3, if_pos h4]
          · by_cases h5 : js.vpub_new ≠ 0 ∧ js.vpub_old ≠ 0
            · simp only [checkJoinSplitOut64, checkJoinSplitOut, if_neg h1, if_neg h2,
                if_neg h3, if_neg h4, if_pos h5]
            · have hn' := (moneyRange_iff n).mp hn
              have hadd : addI64 n js.vpub_old = n + js.vpub_old := by
                push_neg at h1 h3
                unfold addI64
                unfold MAX_MONEY at hn' h3
                apply wrap64_eq_self <;> omega
              simp only [checkJoinSplitOut64, checkJoinSplitOut, if_neg h1, if_neg h2,
                if_neg h3, if_neg h4, if_neg h5, hadd]
              by_cases h6 : MoneyRange (n + js.vpub_old) = true
              · simp only [h6, Bool.not_true, Bool.false_eq_true, if_false]
                exact ih _ h6
              · have h6' : MoneyRange (n + js.vpub_old) = false := by simpa using h6
                simp [h6']

theorem checkJoinSplitIn64_eq : ∀ (l : List JSDescription) (n : Int),
    MoneyRange n = true → checkJoinSplitIn64 l n = checkJoinSplitIn l n := by
  intro l
  induction l with
  | nil => intro n _; rfl
  | cons js rest ih =>
    intro n hn
    by_cases h1 : MoneyRange js.vpub_new = true
    · have hn' := (moneyRange_iff n).mp hn
      have h1' := (moneyRange_iff _).mp h1
      have hadd : addI64 n js.vpub_new = n + js.vpub_new := by
        unfold addI64
        unfold MAX_MONEY at hn' h1'
        apply wrap64_eq_self <;> omega
      simp only [checkJoinSplitIn64, checkJoinSplitIn, hadd, h1, Bool.not_true,
        Bool.false_or]
      by_cases h2 : MoneyRange (n + js.vpub_new) = true
      · simp only [h2, Bool.not_true, Bool.false_eq_true, if_false]
        exact ih _ h2
      · have h2' : MoneyRange (n + js.vpub_new) = false := by simpa using h2
        simp [h2']
    · have h1' : MoneyRange js.vpub_new = false := by simpa using h1
      simp [checkJoinSplitIn64, checkJoinSplitIn, h1']

theorem valueBalanceInPass64_eq (tx : CTransaction) (n : Int)
    (hn : MoneyRange n = true)
    (hvb : -MAX_MONEY ≤ tx.valueBalance ∧ tx.valueBalance ≤ MAX_MONEY) :
    valueBalanceInPass64 tx n = valueBalanceInPass tx n := by
  unfold valueBalanceInPass64 valueBalanceInPass
  split
  · rename_i hge
    have hn' := (moneyRange_iff n).mp hn
    have hadd : addI64 n tx.valueBalance = n + tx.valueBalance := by
      unfold addI64
      unfold MAX_MONEY at hn' hvb
      apply wrap64_eq_self <;> omega
    rw [hadd]
  · rfl

theorem prePasses64_eq (tx : CTransaction) : prePasses64 tx = prePasses tx := by
  unfold prePasses64 prePasses
  cases h1 : structuralPass tx with
  | error r => rfl
  | ok u =>
    dsimp only
    rw [checkVout64_eq tx.vout 0 (by decide)]
    cases h2 : checkVout tx.vout 0 with
    | error r => rfl
    | ok a =>
      dsimp only
      have ha := checkVout_ok_range _ _ _ h2 (by decide)
      rw [valueBalanceOutPass64_eq tx a ha]
      cases h3 : valueBalanceOutPass tx a with
      | error r => rfl
      | ok b =>
        dsimp only
        have hb := vbOut_ok_range tx _ _ h3 ha
        have hvb := vbOut_ok_vbRange tx _ _ h3
        rw [checkJoinSplitOut64_eq tx.vJoinSplit b hb]
        cases h4 : checkJoinSplitOut tx.vJoinSplit b with
        | error r => rfl
        | ok nOut =>
          dsimp only
          rw [checkJoinSplitIn64_eq tx.vJoinSplit 0 (by decide)]
          cases h5 : checkJoinSplitIn tx.vJoinSplit 0 with
          | error r => rfl
          | ok c =>
            dsimp only
            have hc := checkJoinSplitIn_ok_range _ _ _ h5 (by decide)
            rw [valueBalanceInPass64_eq tx c hc hvb]

/-- C3: the checker's accumulations never rely on 64-bit wraparound: running
the same checks with every running-total addition and negation performed in
wrapping signed 64-bit arithmetic yields the identical verdict on every
transaction, because each operand is range-checked by an earlier check
before it is used in an accumulation. -/
theorem C3_wrapping_arithmetic_agrees (tx : CTransaction) :
    CheckTransaction64 tx = CheckTransaction tx := by
  unfold CheckTransaction64 CheckTransaction
  rw [prePasses64_eq]

/-- C4: on any transaction whose pool balance delta is exactly zero, the
implementation (which folds a zero delta into both the output side and the
input side) and the spec's variant (which adds the delta to the input side
only when strictly positive) return the same verdict. -/
theorem C4_zero_delta_equivalence (tx : CTransaction) (h : tx.valueBalance = 0) :
    CheckTransaction tx = CheckTransactionSpec tx := by
  have hpre : prePasses tx = prePassesSpec tx := by
    unfold prePasses prePassesSpec
    cases h1 : structuralPass tx with
    | error r => rfl
    | ok u =>
      dsimp only
      cases h2 : checkVout tx.vout 0 with
      | error r => rfl
      | ok a =>
        dsimp only
        cases h3 : valueBalanceOutPass tx a with
        | error r => rfl
        | ok b =>
          dsimp only
          cases h4 : checkJoinSplitOut tx.vJoinSplit b with
          | error r => rfl
          | ok nOut =>
            dsimp only
            cases h5 : checkJoinSplitIn tx.vJoinSplit 0 with
            | error r => rfl
            | ok c =>
              dsimp only
              have hc := checkJoinSplitIn_ok_range _ _ _ h5 (by decide)
              have heq : valueBalanceInPass tx c = valueBalanceInPassSpec tx c := by
                unfold valueBalanceInPass valueBalanceInPassSpec
                rw [h]
                simp [hc]
              rw [heq]
  unfold CheckTransaction CheckTransactionSpec
  rw [hpre]

/-- Witness for C4 at a concrete zero-delta transaction. -/
theorem C4_zero_delta_equivalence_witness :
    CheckTransaction cbTxGood = CheckTransactionSpec cbTxGood :=
  C4_zero_delta_equivalence cbTxGood rfl

/-- C7: a transaction that reaches pass 4.3 with no second-generation spend
or output descriptions and a non-zero pool balance delta is rejected as
`bad-txns-valuebalance-nonzero`, even when the delta's magnitude exceeds
`MAX_SUPPLY` (the non-zero check runs before the magnitude check). -/
theorem C7_valuebalance_nonzero (tx : CTransaction) (n : Int)
    (h1 : structuralPass tx = .ok ())
    (h2 : checkVout tx.vout 0 = .ok n)
    (h3 : tx.vShieldedSpend = []) (h4 : tx.vShieldedOutput = [])
    (h5 : tx.valueBalance ≠ 0) :
    CheckTransaction tx = .invalid "bad-txns-valuebalance-nonzero" := by
  have hvb : valueBalanceOutPass tx n = .error "bad-txns-valuebalance-nonzero" := by
    unfold valueBalanceOutPass
    rw [if_pos ⟨h3, h4, h5⟩]
  unfold CheckTransaction prePasses
  rw [h1]
  dsimp only
  rw [h2]
  dsimp only
  rw [hvb]

/-- Witness for C7 at a concrete transaction whose delta magnitude also
exceeds `MAX_SUPPLY`. -/
theorem C7_valuebalance_nonzero_witness :
    CheckTransaction vbTxBig = .invalid "bad-txns-valuebalance-nonzero" :=
  C7_valuebalance_nonzero vbTxBig 0 (by rfl) (by rfl) rfl rfl (by decide)

/-- C9: the coinbase branch's access to the first transparent input is in
bounds: a transaction classified coinbase has a non-empty input sequence,
and a transaction with an empty input sequence is classified ordinary. -/
theorem C9_coinbase_vin_nonempty (tx : CTransaction) :
    (tx.IsCoinBase = true → tx.vin ≠ []) ∧
    (tx.vin = [] → tx.IsCoinBase = false) := by
  constructor
  · intro h hnil
    unfold CTransaction.IsCoinBase at h
    rw [hnil] at h
    simp at h
  · intro hnil
    unfold CTransaction.IsCoinBase
    rw [hnil]

/-- Witness for C9 at a concrete coinbase transaction. -/
theorem C9_coinbase_vin_nonempty_witness : cbTxGood.vin ≠ [] :=
  (C9_coinbase_vin_nonempty cbTxGood).1 (by decide)

/-- C5: for a coinbase transaction that reaches pass 4.6, the verdict is
`bad-cb-length` exactly when the first input's unlocking-script byte length
lies outside `[2, 100]`. -/
theorem C5_cb_length_window (tx : CTransaction) (p : Int × Int)
    (txin : CTxIn) (rest : List CTxIn)
    (h1 : prePasses tx = .ok p) (h2 : dupPasses tx = none)
    (h3 : tx.IsCoinBase = true) (h4 : tx.vin = txin :: rest) :
    (CheckTransaction tx = .invalid "bad-cb-length" ↔
      (txin.scriptSig.length < 2 ∨ txin.scriptSig.length > 100)) := by
  unfold CheckTransaction
  rw [h1]
  dsimp only
  rw [h2]
  dsimp only
  unfold finalPass
  rw [if_pos h3, h4]
  dsimp only
  by_cases h5 : txin.scriptSig.length < 2 ∨ txin.scriptSig.length > 100
  · rw [if_pos h5]
    simp only [h5, iff_true]
  · rw [if_neg h5]
    constructor
    · intro hF
      by_cases h6 : tx.vShieldedSpend.length > 0
      · rw [if_pos h6] at hF
        dsimp only at hF
        rw [Verdict.invalid.injEq] at hF
        exact absurd hF (by decide)
      · rw [if_neg h6] at hF
        dsimp only at hF
        exact absurd hF (by simp)
    · intro h5'
      exact absurd h5' h5

/-- Witness for C5 at a concrete coinbase transaction with a one-byte
unlocking script. -/
theorem C5_cb_length_window_witness :
    CheckTransaction cbTxShortSig = .invalid "bad-cb-length" :=
  (C5_cb_length_window cbTxShortSig (1, 0)
    { prevout := { hash := 0, n := 4294967295 }, scriptSig := [0] } []
    (by rfl) (by rfl) (by rfl) rfl).mpr (by decide)

theorem checkJoinSplitIn_eq_NC : ∀ (l : List JSDescription) (n : Int),
    (∀ js ∈ l, MoneyRange js.vpub_new = true) →
    checkJoinSplitIn l n = checkJoinSplitInNC l n := by
  intro l
  induction l with
  | nil => intro n _; rfl
  | cons js rest ih =>
    intro n hmem
    have hjs : MoneyRange js.vpub_new = true := hmem js (List.mem_cons_self js rest)
    simp only [checkJoinSplitIn, checkJoinSplitInNC, hjs, Bool.not_true, Bool.false_or]
    by_cases h2 : MoneyRange (n + js.vpub_new) = true
    · simp only [h2, Bool.not_true, Bool.false_eq_true, if_false]
      exact ih _ (fun q hq => hmem q (List.mem_cons_of_mem js hq))
    · have h2' : MoneyRange (n + js.vpub_new) = false := by simpa using h2
      simp [h2']

theorem checkJoinSplitInNC_error_iff : ∀ (l : List JSDescription) (n : Int),
    (checkJoinSplitInNC l n = .error "bad-txns-txintotal-toolarge" ↔
      inTotalsInRange l n = false) := by
  intro l
  induction l with
  | nil => intro n; simp [checkJoinSplitInNC, inTotalsInRange]
  | cons js rest ih =>
    intro n
    by_cases h2 : MoneyRange (n + js.vpub_new) = true
    · simp only [checkJoinSplitInNC, inTotalsInRange, h2, Bool.not_true,
        Bool.false_eq_true, if_false, Bool.true_and]
      exact ih _
    · have h2' : MoneyRange (n + js.vpub_new) = false := by simpa using h2
      simp [checkJoinSplitInNC, inTotalsInRange, h2']

/-- C10: once the first join-split traversal has succeeded, the per-amount
conjunct re-checked in the second traversal is redundant — the traversal
behaves exactly like its variant that only range-checks the running total —
and it reports `bad-txns-txintotal-toolarge` precisely when some running
input-side total leaves `[0, MAX_SUPPLY]`. -/
theorem C10_second_traversal_conjunct_redundant (tx : CTransaction) (m n' : Int)
    (h : checkJoinSplitOut tx.vJoinSplit m = .ok n') :
    checkJoinSplitIn tx.vJoinSplit 0 = checkJoinSplitInNC tx.vJoinSplit 0 ∧
    (checkJoinSplitIn tx.vJoinSplit 0 = .error "bad-txns-txintotal-toolarge" ↔
      inTotalsInRange tx.vJoinSplit 0 = false) := by
  have hmem : ∀ js ∈ tx.vJoinSplit, MoneyRange js.vpub_new = true := by
    intro js hjs
    have hj := checkJoinSplitOut_ok_mem _ _ _ h js hjs
    exact (moneyRange_iff _).mpr ⟨hj.2.2.1, hj.2.2.2.1⟩
  have heq := checkJoinSplitIn_eq_NC tx.vJoinSplit 0 hmem
  exact ⟨heq, heq ▸ checkJoinSplitInNC_error_iff tx.vJoinSplit 0⟩

/-- Witness for C10 at a concrete transaction with one join-split. -/
theorem C10_second_traversal_conjunct_redundant_witness :
    checkJoinSplitIn jsTxSimple.vJoinSplit 0 = checkJoinSplitInNC jsTxSimple.vJoinSplit 0 ∧
    (checkJoinSplitIn jsTxSimple.vJoinSplit 0 = .error "bad-txns-txintotal-toolarge" ↔
      inTotalsInRange jsTxSimple.vJoinSplit 0 = false) :=
  C10_second_traversal_conjunct_redundant jsTxSimple 0 0 (by rfl)

theorem checkDupInputs_some : ∀ (l : List CTxIn) (seen : List COutPoint) (r : String),
    checkDupInputs l seen = some r → r = "bad-txns-inputs-duplicate" := by
  intro l
  induction l with
  | nil => intro seen r h; simp [checkDupInputs] at h
  | cons a rest ih =>
    intro seen r h
    simp only [checkDupInputs] at h
    split at h
    · simp only [Option.some.injEq] at h
      exact h.symm
    · exact ih _ _ h

theorem checkDupInputs_none_disjoint : ∀ (l : List CTxIn) (seen : List COutPoint),
    checkDupInputs l seen = none → ∀ q ∈ seen, q ∉ l.map (fun t => t.prevout) := by
  intro l
  induction l with
  | nil => intro seen _ q _; simp
  | cons a rest ih =>
    intro seen h q hq
    simp only [checkDupInputs] at h
    split at h
    · simp at h
    · rename_i hnm
      simp only [List.map_cons, List.mem_cons, not_or]
      constructor
      · intro he
        exact hnm (by rwa [he] at hq)
      · exact ih _ h q (List.mem_cons_of_mem _ hq)

theorem checkDupInputs_none_nodup : ∀ (l : List CTxIn) (seen : List COutPoint),
    checkDupInputs l seen = none → (l.map (fun t => t.prevout)).Nodup := by
  intro l
  induction l with
  | nil => intro seen _; simp
  | cons a rest ih =>
    intro seen h
    simp only [checkDupInputs] at h
    split at h
    · simp at h
    · simp only [List.map_cons, List.nodup_cons]
      exact ⟨checkDupInputs_none_disjoint rest _ h a.prevout (List.mem_cons_self _ _),
        ih _ h⟩

theorem checkDupInputs_of_nodup : ∀ (l : List CTxIn) (seen : List COutPoint),
    (l.map (fun t => t.prevout)).Nodup →
    (∀ q ∈ l.map (fun t => t.prevout), q ∉ seen) →
    checkDupInputs l seen = none := by
  intro l
  induction l with
  | nil => intro seen _ _; rfl
  | cons a rest ih =>
    intro seen hnd hdis
    simp only [List.map_cons, List.nodup_cons] at hnd
    simp only [checkDupInputs]
    rw [if_neg (hdis a.prevout (by simp))]
    apply ih _ hnd.2
    intro q hq
    simp only [List.mem_cons, not_or]
    constructor
    · intro he
      exact hnd.1 (by rwa [he] at hq)
    · exact hdis q (List.mem_cons_of_mem _ hq)

theorem insertNullifiers_ok : ∀ (nfs seen : List Nat), nfs.Nodup →
    (∀ x ∈ nfs, x ∉ seen) →
    insertNullifiers nfs seen = some (nfs.reverse ++ seen) := by
  intro nfs
  induction nfs with
  | nil => intro seen _ _; rfl
  | cons nf rest ih =>
    intro seen hnd hdis
    simp only [List.nodup_cons] at hnd
    simp only [insertNullifiers]
    rw [if_neg (hdis nf (by simp))]
    rw [ih (nf :: seen) hnd.2 ?_]
    · simp
    · intro x hx
      simp only [List.mem_cons, not_or]
      exact ⟨fun he => hnd.1 (by rwa [he] at hx),
        fun hs => hdis x (List.mem_cons_of_mem _ hx) hs⟩

theorem checkDupJS_of_nodup : ∀ (l : List JSDescription) (seen : List Nat),
    ((l.map (fun js => js.nullifiers)).flatten).Nodup →
    (∀ x ∈ (l.map (fun js => js.nullifiers)).flatten, x ∉ seen) →
    checkDupJSNullifiers l seen = none := by
  intro l
  induction l with
  | nil => intro seen _ _; rfl
  | cons js rest ih =>
    intro seen hnd hdis
    simp only [List.map_cons, List.flatten_cons, List.nodup_append] at hnd
    obtain ⟨hnd1, hnd2, hdisj⟩ := hnd
    simp only [checkDupJSNullifiers]
    rw [insertNullifiers_ok js.nullifiers seen hnd1
      (fun x hx => hdis x (by simp [hx]))]
    apply ih _ hnd2
    intro x hx
    simp only [List.mem_append, List.mem_reverse, not_or]
    constructor
    · intro hrev
      exact hdisj hrev hx
    · exact hdis x (by simp [hx])

theorem checkDupSap_of_nodup : ∀ (l : List SpendDescription) (seen : List Nat),
    (l.map (fun sd => sd.nullifier)).Nodup →
    (∀ q ∈ l.map (fun sd => sd.nullifier), q ∉ seen) →
    checkDupSapNullifiers l seen = none := by
  intro l
  induction l with
  | nil => intro seen _ _; rfl
  | cons sd rest ih =>
    intro seen hnd hdis
    simp only [List.map_cons, List.nodup_cons] at hnd
    simp only [checkDupSapNullifiers]
    rw [if_neg (hdis sd.nullifier (by simp))]
    apply ih _ hnd.2
    intro q hq
    simp only [List.mem_cons, not_or]
    constructor
    · intro he
      exact hnd.1 (by rwa [he] at hq)
    · exact hdis q (List.mem_cons_of_mem _ hq)

theorem structuralPass_error_mem (tx : CTransaction) (r : String)
    (h : structuralPass tx = .error r) : r ∈ preErrors := by
  unfold structuralPass at h
  split at h
  · simp only [Except.error.injEq] at h
    simp [preErrors, ← h]
  · split at h
    · simp only [Except.error.injEq] at h
      simp [preErrors, ← h]
    · split at h
      · simp only [Except.error.injEq] at h
        simp [preErrors, ← h]
      · simp at h

theorem checkVout_error_mem : ∀ (l : List CTxOut) (n : Int) (r : String),
    checkVout l n = .error r → r ∈ preErrors := by
  intro l
  induction l with
  | nil => intro n r h; simp [checkVout] at h
  | cons o rest ih =>
    intro n r h
    simp only [checkVout] at h
    split at h
    · simp only [Except.error.injEq] at h
      simp [preErrors, ← h]
    · split at h
      · simp only [Except.error.injEq] at h
        simp [preErrors, ← h]
      · split at h
        · simp only [Except.error.injEq] at h
          simp [preErrors, ← h]
        · exact ih _ _ h

theorem vbOut_error_mem (tx : CTransaction) (n : Int) (r : String)
    (h : valueBalanceOutPass tx n = .error r) : r ∈ preErrors := by
  simp only [valueBalanceOutPass] at h
  split at h
  · simp only [Except.error.injEq] at h
    simp [preErrors, ← h]
  · split at h
    · simp only [Except.error.injEq] at h
      simp [preErrors, ← h]
    · split at h
      · split at h
        · simp only [Except.error.injEq] at h
          simp [preErrors, ← h]
        · simp at h
      · simp at h

theorem checkJoinSplitOut_error_mem : ∀ (l : List JSDescription) (n : Int) (r : String),
    checkJoinSplitOut l n = .error r → r ∈ preErrors := by
  intro l
  induction l with
  | nil => intro n r h; simp [checkJoinSplitOut] at h
  | cons js rest ih =>
    intro n r h
    simp only [checkJoinSplitOut] at h
    split at h
    · simp only [Except.error.injEq] at h
      simp [preErrors, ← h]
    · split at h
      · simp only [Except.error.injEq] at h
        simp [preErrors, ← h]
      · split at h
        · simp only [Except.error.injEq] at h
          simp [preErrors, ← h]
        · split at h
          · simp only [Except.error.injEq] at h
            simp [preErrors, ← h]
          · split at h
            · simp only [Except.error.injEq] at h
              simp [preErrors, ← h]
            · split at h
              · simp only [Except.error.injEq] at h
                simp [preErrors, ← h]
              · exact ih _ _ h

theorem checkJoinSplitIn_error_mem : ∀ (l : List JSDescription) (n : Int) (r : String),
    checkJoinSplitIn l n = .error r → r ∈ preErrors := by
  intro l
  induction l with
  | nil => intro n r h; simp [checkJoinSplitIn] at h
  | cons js rest ih =>
    intro n r h
    simp only [checkJoinSplitIn] at h
    split at h
    · simp only [Except.error.injEq] at h
      simp [preErrors, ← h]
    · exact ih _ _ h

theorem vbIn_error_mem (tx : CTransaction) (n : Int) (r : String)
    (h : valueBalanceInPass tx n = .error r) : r ∈ preErrors := by
  simp only [valueBalanceInPass] at h
  split at h
  · split at h
    · simp only [Except.error.injEq] at h
      simp [preErrors, ← h]
    · simp at h
  · simp at h

theorem prePasses_error_mem (tx : CTransaction) (r : String)
    (h : prePasses tx = .error r) : r ∈ preErrors := by
  unfold prePasses at h
  cases h1 : structuralPass tx with
  | error s =>
    simp only [h1, Except.error.injEq] at h
    exact h ▸ structuralPass_error_mem tx s h1
  | ok u =>
    simp only [h1] at h
    cases h2 : checkVout tx.vout 0 with
    | error s =>
      simp only [h2, Except.error.injEq] at h
      exact h ▸ checkVout_error_mem tx.vout 0 s h2
    | ok a =>
      simp only [h2] at h
      cases h3 : valueBalanceOutPass tx a with
      | error s =>
        simp only [h3, Except.error.injEq] at h
        exact h ▸ vbOut_error_mem tx a s h3
      | ok b =>
        simp only [h3] at h
        cases h4 : checkJoinSplitOut tx.vJoinSplit b with
        | error s =>
          simp only [h4, Except.error.injEq] at h
          exact h ▸ checkJoinSplitOut_error_mem tx.vJoinSplit b s h4
        | ok nOut =>
          simp only [h4] at h
          cases h5 : checkJoinSplitIn tx.vJoinSplit 0 with
          | error s =>
            simp only [h5, Except.error.injEq] at h
            exact h ▸ checkJoinSplitIn_error_mem tx.vJoinSplit 0 s h5
          | ok c =>
            simp only [h5] at h
            cases h6 : valueBalanceInPass tx c with
            | error s =>
              simp only [h6, Except.error.injEq] at h
              exact h ▸ vbIn_error_mem tx c s h6
            | ok nIn => simp [h6] at h

theorem finalPass_error_mem (tx : CTransaction) (r : String)
    (h : finalPass tx = some r) :
    r = "bad-cb-length" ∨ r = "bad-cb-has-spend-description" ∨
    r = "bad-txns-prevout-null" ∨ r = "bad-spend-description-nullifier-null" := by
  unfold finalPass at h
  split at h
  · split at h
    · split at h
      · simp only [Option.some.injEq] at h
        exact Or.inl h.symm
      · split at h
        · simp only [Option.some.injEq] at h
          exact Or.inr (Or.inl h.symm)
        · simp at h
    · simp at h
  · split at h
    · simp only [Option.some.injEq] at h
      exact Or.inr (Or.inr (Or.inl h.symm))
    · split at h
      · simp only [Option.some.injEq] at h
        exact Or.inr (Or.inr (Or.inr h.symm))
      · simp at h

/-- C2 counterexample: a transaction with a duplicated previous-output
reference but an empty output side is rejected as `bad-txns-vout-empty`,
not `bad-txns-inputs-duplicate` — the verdict is not independent of the
other fields. -/
theorem C2_counterexample :
    ¬ (dupInVoutEmptyTx.vin.map (fun t => t.prevout)).Nodup ∧
    CheckTransaction dupInVoutEmptyTx ≠ .invalid "bad-txns-inputs-duplicate" ∧
    CheckTransaction dupInVoutEmptyTx = .invalid "bad-txns-vout-empty" := by
  refine ⟨by decide, by decide, by rfl⟩

/-- C2 (amended): a transaction with a duplicated previous-output reference
among its transparent inputs is never accepted, and whenever all checks
preceding the duplicate-detection pass succeed its verdict is
`Invalid(bad-txns-inputs-duplicate)`. -/
theorem C2_duplicate_inputs_rejected (tx : CTransaction)
    (h : ¬ (tx.vin.map (fun t => t.prevout)).Nodup) :
    CheckTransaction tx ≠ .valid ∧
    (∀ p, prePasses tx = .ok p →
      CheckTransaction tx = .invalid "bad-txns-inputs-duplicate") := by
  have hsome : checkDupInputs tx.vin [] = some "bad-txns-inputs-duplicate" := by
    cases hc : checkDupInputs tx.vin [] with
    | none => exact absurd (checkDupInputs_none_nodup _ _ hc) h
    | some r => rw [checkDupInputs_some _ _ _ hc]
  have hdp : dupPasses tx = some "bad-txns-inputs-duplicate" := by
    unfold dupPasses
    rw [hsome]
  constructor
  · intro hv
    obtain ⟨_, hd, _⟩ := valid_decompose tx hv
    rw [hdp] at hd
    exact Option.noConfusion hd
  · intro p hp
    unfold CheckTransaction
    rw [hp]
    dsimp only
    rw [hdp]

/-- Witness for the amended C2 at a concrete transaction that reaches the
duplicate-detection pass. -/
theorem C2_duplicate_inputs_rejected_witness :
    CheckTransaction dupInReachTx ≠ .valid ∧
    CheckTransaction dupInReachTx = .invalid "bad-txns-inputs-duplicate" :=
  ⟨(C2_duplicate_inputs_rejected dupInReachTx (by decide)).1,
   (C2_duplicate_inputs_rejected dupInReachTx (by decide)).2 (1, 0) (by rfl)⟩

/-- C6: when each of the three key spaces is duplicate-free within itself,
none of the three duplicate reason codes is returned — even if a value is
shared between the first-generation and second-generation nullifier spaces,
since the spaces are only compared within themselves. -/
theorem C6_key_spaces_independent (tx : CTransaction)
    (h1 : (tx.vin.map (fun t => t.prevout)).Nodup)
    (h2 : (sproutNullifiers tx).Nodup)
    (h3 : (tx.vShieldedSpend.map (fun sd => sd.nullifier)).Nodup) :
    CheckTransaction tx ≠ .invalid "bad-txns-inputs-duplicate" ∧
    CheckTransaction tx ≠ .invalid "bad-joinsplits-nullifiers-duplicate" ∧
    CheckTransaction tx ≠ .invalid "bad-spend-description-nullifiers-duplicate" := by
  have h2' : ((tx.vJoinSplit.map (fun js => js.nullifiers)).flatten).Nodup := h2
  have hdup : dupPasses tx = none := by
    unfold dupPasses
    rw [checkDupInputs_of_nodup tx.vin [] h1 (by simp)]
    dsimp only
    rw [checkDupJS_of_nodup tx.vJoinSplit [] h2' (by simp)]
    dsimp only
    exact checkDupSap_of_nodup tx.vShieldedSpend [] h3 (by simp)
  unfold CheckTransaction
  cases hp : prePasses tx with
  | error r =>
    have hr := prePasses_error_mem tx r hp
    dsimp only
    refine ⟨?_, ?_, ?_⟩ <;>
      · intro hE
        rw [Verdict.invalid.injEq] at hE
        subst hE
        revert hr
        decide
  | ok p =>
    dsimp only
    rw [hdup]
    dsimp only
    cases hf : finalPass tx with
    | some r =>
      have hr := finalPass_error_mem tx r hf
      dsimp only
      refine ⟨?_, ?_, ?_⟩ <;>
        · intro hE
          rw [Verdict.invalid.injEq] at hE
          subst hE
          rcases hr with h' | h' | h' | h' <;> exact absurd h' (by decide)
    | none =>
      dsimp only
      exact ⟨by simp, by simp, by simp⟩

/-- Witness for C6 at a concrete transaction whose value `5` occurs both as
a first-generation nullifier and as a second-generation spend nullifier. -/
theorem C6_key_spaces_independent_witness :
    CheckTransaction crossNullifierTx ≠ .invalid "bad-txns-inputs-duplicate" ∧
    CheckTransaction crossNullifierTx ≠ .invalid "bad-joinsplits-nullifiers-duplicate" ∧
    CheckTransaction crossNullifierTx ≠ .invalid "bad-spend-description-nullifiers-duplicate" :=
  C6_key_spaces_independent crossNullifierTx (by decide) (by decide) (by decide)

theorem checkJoinSplitOut_append : ∀ (l1 l2 : List JSDescription) (n : Int),
    checkJoinSplitOut (l1 ++ l2) n =
      match checkJoinSplitOut l1 n with
      | .error r => .error r
      | .ok m => checkJoinSplitOut l2 m := by
  intro l1
  induction l1 with
  | nil => intro l2 n; rfl
  | cons js rest ih =>
    intro l2 n
    by_cases h1 : js.vpub_old < 0
    · simp only [List.cons_append, checkJoinSplitOut, if_pos h1]
    · by_cases h2 : js.vpub_new < 0
      · simp only [List.cons_append, checkJoinSplitOut, if_neg h1, if_pos h2]
      · by_cases h3 : js.vpub_old > MAX_MONEY
        · simp only [List.cons_append, checkJoinSplitOut, if_neg h1, if_neg h2,
            if_pos h3]
        · by_cases h4 : js.vpub_new > MAX_MONEY
          · simp only [List.cons_append, checkJoinSplitOut, if_neg h1, if_neg h2,
              if_neg h3, if_pos h4]
          · by_cases h5 : js.vpub_new ≠ 0 ∧ js.vpub_old ≠ 0
            · simp only [List.cons_append, checkJoinSplitOut, if_neg h1, if_neg h2,
                if_neg h3, if_neg h4, if_pos h5]
            · by_cases h6 : (!MoneyRange (n + js.vpub_old)) = true
              · simp only [List.cons_append, checkJoinSplitOut, if_neg h1, if_neg h2,
                  if_neg h3, if_neg h4, if_neg h5, if_pos h6]
              · simp only [List.cons_append, checkJoinSplitOut, if_neg h1, if_neg h2,
                  if_neg h3, if_neg h4, if_neg h5, if_neg h6]
                exact ih l2 _

/-- C8 counterexample: a transaction that reaches pass 4.4 whose first
join-split description fails its per-amount checks; the first description
whose per-amount checks all pass has both legs non-zero, yet the verdict is
`bad-txns-vpub_old-negative`, not `bad-txns-vpubs-both-nonzero`. -/
theorem C8_counterexample :
    structuralPass mixedJoinSplitTx = .ok () ∧
    checkVout mixedJoinSplitTx.vout 0 = .ok 1 ∧
    valueBalanceOutPass mixedJoinSplitTx 1 = .ok 1 ∧
    mixedJoinSplitTx.vJoinSplit.find? perAmountOk =
      some { vpub_old := 3, vpub_new := 4, nullifiers := [3, 4] } ∧
    (3 : Int) ≠ 0 ∧ (4 : Int) ≠ 0 ∧
    CheckTransaction mixedJoinSplitTx ≠ .invalid "bad-txns-vpubs-both-nonzero" ∧
    CheckTransaction mixedJoinSplitTx = .invalid "bad-txns-vpub_old-negative" := by
  refine ⟨by rfl, by rfl, by rfl, by rfl, by decide, by decide, by decide, by rfl⟩

/-- C8 (amended): for a transaction that reaches pass 4.4, if every
join-split description before some description passes all of the first
traversal's checks, and that description passes its per-amount checks but
has both legs non-zero, the verdict is `Invalid(bad-txns-vpubs-both-nonzero)`. -/
theorem C8_vpubs_both_nonzero_rejected (tx : CTransaction) (a b m : Int)
    (pre post : List JSDescription) (js : JSDescription)
    (h1 : structuralPass tx = .ok ())
    (h2 : checkVout tx.vout 0 = .ok a)
    (h3 : valueBalanceOutPass tx a = .ok b)
    (h4 : tx.vJoinSplit = pre ++ js :: post)
    (h5 : checkJoinSplitOut pre b = .ok m)
    (h6 : 0 ≤ js.vpub_old ∧ js.vpub_old ≤ MAX_MONEY ∧
      0 ≤ js.vpub_new ∧ js.vpub_new ≤ MAX_MONEY)
    (h7 : js.vpub_new ≠ 0 ∧ js.vpub_old ≠ 0) :
    CheckTransaction tx = .invalid "bad-txns-vpubs-both-nonzero" := by
  obtain ⟨h6a, h6b, h6c, h6d⟩ := h6
  have hjo : checkJoinSplitOut tx.vJoinSplit b = .error "bad-txns-vpubs-both-nonzero" := by
    rw [h4, checkJoinSplitOut_append, h5]
    dsimp only
    simp only [checkJoinSplitOut]
    rw [if_neg (by omega), if_neg (by omega), if_neg (by omega), if_neg (by omega),
      if_pos h7]
  unfold CheckTransaction prePasses
  rw [h1]
  dsimp only
  rw [h2]
  dsimp only
  rw [h3]
  dsimp only
  rw [hjo]

/-- Witness for the amended C8 at a concrete transaction whose only
join-split description has both legs non-zero. -/
theorem C8_vpubs_both_nonzero_rejected_witness :
    CheckTransaction bothLegsTx = .invalid "bad-txns-vpubs-both-nonzero" :=
  C8_vpubs_both_nonzero_rejected bothLegsTx 1 1 1 []
    [] { vpub_old := 3, vpub_new := 4, nullifiers := [1, 2] }
    (by rfl) (by rfl) (by rfl) rfl (by rfl) (by decide) (by decide)
